import Mathlib

/-!
Verification of the sqlite-wrapper query builder and backup lifecycle.

The development shallowly embeds the two source modules:
  * `statement.py`: pure SQL predicate-fragment builders (`val_eq`, `val_in`, ...).
  * `sqlite.py`: the `Handler` class; its SQL-assembly helpers (`_sql_select`,
    `_sql_join`, `_sql_where`, `_sql_order`, `_sql_ignore`, `_row_insert`,
    `sql_select`), its fetch-limit plumbing (`_fetch` / `fetchmany`), its
    side-effect structure (modelled as event traces), its backup rotation
    (`backup_create`, modelled on the list of backup file names in the
    database directory) and its backup integrity checks (`backup_check`,
    `backup_set`, `backup_pop`, modelled on a finite file-system map).

Python values that flow into f-strings are modelled by `PyVal`; `pyStr` is
Python `str()` and `pyRepr` is Python `repr()` (faithful for strings that
contain no quote, backslash or control characters, which is the fragment
used throughout).
-/

/-- Scalar Python values that the wrapper interpolates into SQL text. -/
inductive PyVal where
  | str (s : String)
  | int (n : Int)
  | bool (b : Bool)
deriving DecidableEq, Repr

/-- Python `str()` of a scalar, as used by f-string interpolation of a bare value. -/
def pyStr : PyVal → String
  | .str s => s
  | .int n => toString n
  | .bool b => if b then "True" else "False"

/-- Python `repr()` of a scalar, as used when a tuple containing it is interpolated:
strings are single-quoted, numbers and booleans rendered bare. -/
def pyRepr : PyVal → String
  | .str s => "'" ++ s ++ "'"
  | .int n => toString n
  | .bool b => if b then "True" else "False"

/-- Python `str()` of a tuple of values: `()`, `(x,)` for a singleton (note the
trailing comma), `(x, y, ...)` otherwise, elements rendered with `repr()`. -/
def pyTupleRepr (xs : List PyVal) : String :=
  match xs with
  | [] => "()"
  | [x] => "(" ++ pyRepr x ++ ",)"
  | _ => "(" ++ String.intercalate ", " (xs.map pyRepr) ++ ")"

/-- `statement.val_eq`: the text after the f-string template `== '{val}'`. -/
def val_eq (v : PyVal) : String := "== '" ++ pyStr v ++ "'"

/-- `statement.val_neq`: template `!= '{val}'`. -/
def val_neq (v : PyVal) : String := "!= '" ++ pyStr v ++ "'"

/-- `statement.val_lt`: template `< '{val}'`. -/
def val_lt (v : PyVal) : String := "< '" ++ pyStr v ++ "'"

/-- `statement.val_gt`: template `> '{val}'`. -/
def val_gt (v : PyVal) : String := "> '" ++ pyStr v ++ "'"

/-- `statement.val_lte`: template `<= '{val}'`. -/
def val_lte (v : PyVal) : String := "<= '" ++ pyStr v ++ "'"

/-- `statement.val_gte`: template `>= '{val}'`. -/
def val_gte (v : PyVal) : String := ">= '" ++ pyStr v ++ "'"

/-- `statement.val_in`: the starred arguments arrive as a Python tuple `args` and the
template interpolates that tuple, so the output is `[NOT ]IN ` followed by the
tuple rendering of `pyTupleRepr`. -/
def val_in (args : List PyVal) (negate : Bool) : String :=
  (if negate then "NOT " else "") ++ "IN " ++ pyTupleRepr args

/-- `statement.val_btw`: template `[NOT ]BETWEEN '{lower}' AND '{upper}'`. -/
def val_btw (lower upper : PyVal) (negate : Bool) : String :=
  (if negate then "NOT " else "") ++ "BETWEEN '" ++ pyStr lower ++ "' AND '" ++ pyStr upper ++ "'"

/-- `statement.val_like`: template `[NOT ]LIKE '{pattern}'`. -/
def val_like (pattern : String) (negate : Bool) : String :=
  (if negate then "NOT " else "") ++ "LIKE '" ++ pattern ++ "'"

/-- `statement.val_null`: template `IS [NOT ]NULL`. -/
def val_null (negate : Bool) : String :=
  "IS " ++ (if negate then "NOT " else "") ++ "NULL"

/-- `Handler._sql_select`: comma-space-joined column list, `*` when the argument is
`None` or the empty list (both falsy in Python). -/
def _sql_select (select : Option (List String)) : String :=
  match select with
  | none => "*"
  | some [] => "*"
  | some sel => String.intercalate ", " sel

/-- `Handler._sql_join`: a bare string is used verbatim; a Python list (of any
length) is joined with ` NATURAL JOIN `. -/
def _sql_join : String ⊕ List String → String
  | .inl t => t
  | .inr ts => String.intercalate " NATURAL JOIN " ts

/-- `Handler._sql_where`: a dict is modelled as an association list in insertion
order; falsy (absent or empty) renders the empty string, otherwise
`WHERE k1 v1 AND k2 v2 ...`. -/
def _sql_where (wh : Option (List (String × String))) : String :=
  match wh with
  | none => ""
  | some [] => ""
  | some w => "WHERE " ++ String.intercalate " AND " (w.map (fun p => p.1 ++ " " ++ p.2))

/-- `Handler._sql_order`: falsy renders the empty string, otherwise
`ORDER BY k1 v1,k2 v2,...` (the source joins entries with a bare comma). -/
def _sql_order (ord : Option (List (String × String))) : String :=
  match ord with
  | none => ""
  | some [] => ""
  | some o => "ORDER BY " ++ String.intercalate "," (o.map (fun p => p.1 ++ " " ++ p.2))

/-- `Handler._sql_ignore`: `OR IGNORE ` (with trailing space) when set, else empty. -/
def _sql_ignore (ignore : Bool) : String := if ignore then "OR IGNORE " else ""

/-- `Handler._row_insert`: the f-string interpolates `tuple(data.keys())` and
`tuple(data.values())`, i.e. the Python tuple renderings. The dict is modelled
as an association list in insertion order. -/
def _row_insert (data : List (String × PyVal)) (ignore : Bool) (table : String) : String :=
  "INSERT " ++ _sql_ignore ignore ++ "INTO " ++ table ++ " " ++
    pyTupleRepr (data.map (fun p => PyVal.str p.1)) ++ " VALUES " ++
    pyTupleRepr (data.map Prod.snd) ++ ";"

/-- `Handler.sql_select`: the full statement template
`SELECT {sel} FROM {join} {where} {order};`. -/
def sql_select (tables : String ⊕ List String) (select : Option (List String))
    (wh ord : Option (List (String × String))) : String :=
  "SELECT " ++ _sql_select select ++ " FROM " ++ _sql_join tables ++ " " ++
    _sql_where wh ++ " " ++ _sql_order ord ++ ";"

/-- Observable engine interactions of a Handler operation: opening a sqlite
connection, executing one SQL statement text, or running `backup_create`. -/
inductive Event where
  | connect
  | exec (sql : String)
  | backup
deriving DecidableEq, Repr

/-- `Handler._conn_run`: the three pragma statements executed on every fresh
connection. -/
def _conn_run : List Event :=
  [Event.exec "PRAGMA foreign_keys = ON;",
   Event.exec "PRAGMA journal_mode = WAL;",
   Event.exec "PRAGMA synchronous = NORMAL;"]

/-- `Handler._execute`: opens one connection, runs the pragmas, then executes each
statement of the (possibly empty) batch in order. -/
def _execute (sqls : List String) : List Event :=
  Event.connect :: _conn_run ++ sqls.map Event.exec

/-- `Handler.row_insert` as an event trace. The argument `data` is the batch
after the `isinstance(data, Sequence)` normalisation (a single mapping arrives
wrapped in a one-element list); each mapping is an association list in insertion
order. The source returns at once on a falsy table, creates a backup when the
raw batch length exceeds the threshold, filters falsy (empty) mappings out, and
hands the built statements to `_execute`. -/
def row_insert_trace (threshold : Int) (table : String)
    (data : List (List (String × PyVal))) (ignore : Bool) : List Event :=
  if table = "" then []
  else
    (if threshold < (data.length : Int) then [Event.backup] else []) ++
      _execute ((data.filter (fun p => ¬ p = [])).map (fun p => _row_insert p ignore table))

/-- `Handler.row_update` as an event trace: returns at once when the table name or
the data mapping is falsy, else executes the single UPDATE statement. -/
def row_update_trace (table : String) (data : List (String × PyVal))
    (wh : Option (List (String × String))) : List Event :=
  if table = "" ∨ data = [] then []
  else
    _execute ["UPDATE " ++ table ++ " SET " ++
      pyTupleRepr (data.map (fun p => PyVal.str p.1)) ++ " = " ++
      pyTupleRepr (data.map Prod.snd) ++ " " ++ _sql_where wh ++ ";"]

/-- `Handler.row_delete` as an event trace: returns at once when the table name is
falsy, else executes the single DELETE statement. -/
def row_delete_trace (table : String) (wh : Option (List (String × String))) : List Event :=
  if table = "" then []
  else _execute ["DELETE FROM " ++ table ++ " " ++ _sql_where wh ++ ";"]

/-- `Handler._col_default`: `DEFAULT {default}` when the value is truthy, else empty.
Python truthiness of the modelled scalars: empty string, 0 and False are falsy. -/
def _col_default (default : Option PyVal) : String :=
  match default with
  | none => ""
  | some (.str s) => if s = "" then "" else "DEFAULT " ++ s
  | some (.int n) => if n = 0 then "" else "DEFAULT " ++ toString n
  | some (.bool b) => if b then "DEFAULT True" else ""

/-- `Handler.col_create` as an event trace: returns at once when table, column or
type is falsy, else executes the single ALTER TABLE statement (type upper-cased). -/
def col_create_trace (table col sql_type : String) (default : Option PyVal) : List Event :=
  if table = "" ∨ col = "" ∨ sql_type = "" then []
  else
    _execute ["ALTER TABLE " ++ table ++ " ADD COLUMN " ++ col ++ " " ++
      sql_type.toUpper ++ " " ++ _col_default default ++ ";"]

/-- CPython `sqlite3.Cursor.fetchmany` row-count semantics: rows are appended one
at a time and the loop stops when the list length equals `maxrows`; a
non-positive `maxrows` is never reached, so every row is returned. -/
def fetchmany (rows : List α) (maxrows : Int) : List α :=
  if 0 < maxrows then rows.take maxrows.toNat else rows

/-- `Handler._fetch` applied to the rows the engine produced for the query: the
source calls `cur.fetchmany(fetch or -1)`, and Python `fetch or -1` is `-1`
exactly when `fetch == 0`. -/
def _fetch (rows : List α) (fetch : Int) : List α :=
  fetchmany rows (if fetch = 0 then -1 else fetch)

/-- `Handler.__backups`: the effective retention count is `abs` of the constructor
argument. -/
def __backups (backups : Int) : Nat := backups.natAbs

/-- The one exception `Handler.backup_create` can raise on its own: `backups[0]`
on an empty sorted list. -/
inductive BackupErr where
  | indexError
deriving DecidableEq, Repr

/-- Python `str` comparison on the characters, by code point: the empty list is a
prefix of everything, and the first differing code point decides. -/
def charsLe : List Char → List Char → Bool
  | [], _ => true
  | _ :: _, [] => false
  | a :: as, b :: bs =>
    if a.toNat < b.toNat then true
    else if b.toNat < a.toNat then false
    else charsLe as bs

/-- Python `a <= b` on strings: code-point lexicographic comparison. -/
def strLe (a b : String) : Bool := charsLe a.data b.data

/-- Insert one name into an ascending list, keeping it ascending. -/
def orderedInsert (a : String) : List String → List String
  | [] => [a]
  | b :: l => if strLe a b then a :: b :: l else b :: orderedInsert a l

/-- Python `sorted` on a list of file names: ascending insertion sort under
code-point lexicographic comparison. -/
def sortBackups : List String → List String
  | [] => []
  | a :: l => orderedInsert a (sortBackups l)

/-- `Handler.backup_create`, viewed on the multiset of backup file names present
in the database directory. The source sorts the existing names ascending
(`sorted(self.backup_list())`), and when the count is already at or above the
retention it unlinks `backups[0]` (an IndexError when the list is empty, raised
before any snapshot is written); finally the new snapshot name is added. The
pair returned is (raised exception if any, directory contents afterwards). -/
def backup_create (retention : Nat) (existing : List String) (newName : String) :
    Option BackupErr × List String :=
  if retention ≤ (sortBackups existing).length then
    match sortBackups existing with
    | [] => (some .indexError, existing)
    | _ :: rest => (none, rest ++ [newName])
  else (none, existing ++ [newName])

/-- A file on disk, for the backup integrity checks: its permission bits and its
contents. -/
structure File where
  mode : Nat
  content : String
deriving DecidableEq, Repr

/-- The exceptions `Handler.backup_check` raises. -/
inductive BakErr where
  | fileNotFound
  | permissionError
deriving DecidableEq, Repr

/-- Look a path up in a directory state (association list from path to file;
absent key = no file). -/
def fsLookup (fs : List (String × File)) (p : String) : Option File :=
  match fs with
  | [] => none
  | (q, f) :: rest => if p = q then some f else fsLookup rest p

/-- Remove a path binding from a directory state. -/
def fsDel (fs : List (String × File)) (p : String) : List (String × File) :=
  fs.filter (fun e => ¬ e.1 = p)

/-- Update-or-insert a path binding in a directory state. -/
def fsSet (fs : List (String × File)) (p : String) (f : File) : List (String × File) :=
  (p, f) :: fsDel fs p

/-- `Handler.backup_check`: FileNotFoundError when the backup path is not a file
(or, via `stat`, when the live database is missing), PermissionError when the two
`st_mode` values differ; on success the checked file is returned. -/
def backup_check (fs : List (String × File)) (db bak : String) : Except BakErr File :=
  match fsLookup fs bak with
  | none => .error .fileNotFound
  | some f =>
    match fsLookup fs db with
    | none => .error .fileNotFound
    | some g => if f.mode = g.mode then .ok f else .error .permissionError

/-- `Handler.backup_set`: check, then `path.replace(self.__database)` — the backup
file is renamed over the live database. A raised check exception propagates
before any write, so the directory is returned unchanged in that case. -/
def backup_set (fs : List (String × File)) (db bak : String) :
    Option BakErr × List (String × File) :=
  match backup_check fs db bak with
  | .error e => (some e, fs)
  | .ok f => (none, fsSet (fsDel fs bak) db f)

/-- `Handler.backup_pop`: check, then `path.unlink()`. A raised check exception
propagates before the unlink, so the directory is returned unchanged then. -/
def backup_pop (fs : List (String × File)) (db bak : String) :
    Option BakErr × List (String × File) :=
  match backup_check fs db bak with
  | .error e => (some e, fs)
  | .ok _ => (none, fsDel fs bak)

/-- The numeric value, if any, a scalar carries under Python comparison: Python
booleans are the integers 1 and 0, so `True == 1` and `False == 0`; strings carry
none. -/
def pyNum : PyVal → Option Int
  | .str _ => none
  | .int n => some n
  | .bool b => some (if b then 1 else 0)

/-- The string value, if any, a scalar carries under Python comparison. -/
def pyStrVal : PyVal → Option String
  | .str s => some s
  | _ => none

/-- Python `==` on the modelled scalars: strings compare by text, integers and
booleans compare by numeric value (so `True == 1` and `False == 0`), and a string
never equals a number. -/
def pyEq (a b : PyVal) : Bool :=
  decide (pyNum a = pyNum b) && decide (pyStrVal a = pyStrVal b)

/-- Python `==` on tuples of scalars (used for the starred arguments of `val_in`):
element-wise `pyEq` at equal lengths. -/
def pyEqList : List PyVal → List PyVal → Bool
  | [], [] => true
  | a :: as, b :: bs => pyEq a b && pyEqList as bs
  | _, _ => false

/-- Python `==` on the cache key of `val_btw`: `pyEq` on the two bounds, and the
negate flag (always a genuine bool here) by value. -/
def pyEqKeyBtw (p q : PyVal × PyVal × Bool) : Bool :=
  pyEq p.1 q.1 && pyEq p.2.1 q.2.1 && decide (p.2.2 = q.2.2)

/-- Python `==` on the cache key of `val_in`: the argument tuple element-wise, and
the negate flag by value. -/
def pyEqKeyIn (p q : List PyVal × Bool) : Bool :=
  pyEqList p.1 q.1 && decide (p.2 = q.2)

/-- Python `==` on the cache key of `val_like`: the pattern string and the negate
flag by value (no cross-type aliasing exists on this domain). -/
def pyEqKeyLike (p q : String × Bool) : Bool := decide (p = q)

/-- Python `==` on the cache key of `val_null`: the negate flag by value. -/
def pyEqKeyNull (p q : Bool) : Bool := decide (p = q)

/-- Look an argument up in a memoisation table. `functools.cache` hashes the
argument tuple and compares candidates with Python `==`, so the key comparison is
the caller-supplied `eqv`, not structural equality. -/
def cacheLookup (eqv : α → α → Bool) (x : α) : List (α × String) → Option String
  | [] => none
  | (a, s) :: es => if eqv x a then some s else cacheLookup eqv x es

/-- One call through a `functools.cache`-decorated function: on a hit (some stored
key compares `eqv`-equal) the cached string is returned and the cache is
unchanged; on a miss the function runs and the result is recorded. -/
def cachedCall (f : α → String) (eqv : α → α → Bool) (cache : List (α × String))
    (x : α) : String × List (α × String) :=
  match cacheLookup eqv x cache with
  | some r => (r, cache)
  | none => (f x, (x, f x) :: cache)

/-- A sequence of calls through the shared cache, returning the observed results
in order: the model of repeated calls to one memoised builder within a process. -/
def runCalls (f : α → String) (eqv : α → α → Bool) (cache : List (α × String)) :
    List α → List String
  | [] => []
  | x :: xs => (cachedCall f eqv cache x).1 :: runCalls f eqv (cachedCall f eqv cache x).2 xs

/-- The first element of the list that compares `eqv`-equal to `x`, or `x` itself
when none does: the argument whose rendering a memoised call actually returns. -/
def firstMatch (eqv : α → α → Bool) (x : α) : List α → α
  | [] => x
  | y :: ys => if eqv x y then y else firstMatch eqv x ys

/-- The observable outputs of a memoised builder, specified independently of the
cache: each call returns the pure rendering of the first `eqv`-equal argument in
call order (`seen` is the list of arguments of the earlier calls). -/
def memoOutputs (f : α → String) (eqv : α → α → Bool) : List α → List α → List String
  | _, [] => []
  | seen, x :: xs => f (firstMatch eqv x seen) :: memoOutputs f eqv (seen ++ [x]) xs

/-- The cache faithfully represents the call history `seen`: a lookup answers the
rendering of the first `eqv`-equal argument seen so far, and misses otherwise. -/
def CacheFaithful (f : α → String) (eqv : α → α → Bool) (seen : List α)
    (cache : List (α × String)) : Prop :=
  ∀ x, cacheLookup eqv x cache =
    if seen.any (eqv x) then some (f (firstMatch eqv x seen)) else none

/-- Inserting into a list yields a permutation of consing. -/
theorem orderedInsert_perm (a : String) (l : List String) :
    List.Perm (orderedInsert a l) (a :: l) := by
  induction l with
  | nil => simp [orderedInsert]
  | cons b t ih =>
    by_cases h : strLe a b
    · simp [orderedInsert, h]
    · simp only [orderedInsert, h, if_neg, Bool.not_eq_true]
      exact ((ih.cons b).trans (List.Perm.swap a b t))

/-- The sorted backup list is a permutation of the directory listing. -/
theorem sortBackups_perm : ∀ l : List String, List.Perm (sortBackups l) l
  | [] => List.Perm.refl _
  | a :: l => ((orderedInsert_perm a (sortBackups l)).trans ((sortBackups_perm l).cons a))

/-- Sorting the backup list preserves the number of backup files. -/
theorem sortBackups_length (l : List String) : (sortBackups l).length = l.length :=
  (sortBackups_perm l).length_eq

/-- `_execute` never performs a backup: its trace is a connect and statement texts. -/
theorem backup_not_mem_execute (sqls : List String) : Event.backup ∉ _execute sqls := by
  intro h
  rcases List.mem_cons.mp h with h1 | h2
  · exact Event.noConfusion h1
  · rcases List.mem_append.mp h2 with h3 | h4
    · simp [_conn_run] at h3
    · obtain ⟨s, _, hs⟩ := List.mem_map.mp h4
      exact Event.noConfusion hs

/-- When nothing seen compares equal, the first match defaults to the argument. -/
theorem firstMatch_of_not_any (eqv : α → α → Bool) (x : α) :
    ∀ seen : List α, seen.any (eqv x) = false → firstMatch eqv x seen = x := by
  intro seen
  induction seen with
  | nil => intro _; rfl
  | cons y ys ih =>
    intro h
    rw [List.any_cons] at h
    obtain ⟨h1, h2⟩ := Bool.or_eq_false_iff.mp h
    rw [firstMatch, if_neg (by simp [h1]), ih h2]

/-- A match found among the already-seen arguments is unaffected by later ones. -/
theorem firstMatch_append_of_any (eqv : α → α → Bool) (x : α) (l : List α) :
    ∀ seen : List α, seen.any (eqv x) = true →
      firstMatch eqv x (seen ++ l) = firstMatch eqv x seen := by
  intro seen
  induction seen with
  | nil => intro h; simp at h
  | cons y ys ih =>
    intro h
    by_cases h1 : eqv x y = true
    · rw [List.cons_append, firstMatch, if_pos h1, firstMatch, if_pos h1]
    · rw [List.any_cons] at h
      have h2 : ys.any (eqv x) = true := by
        rcases Bool.or_eq_true_iff.mp h with ha | hb
        · exact absurd ha h1
        · exact hb
      rw [List.cons_append, firstMatch, if_neg h1, firstMatch, if_neg h1]
      exact ih h2

/-- With no match among the seen arguments, appending one more makes it the match
exactly when it compares equal. -/
theorem firstMatch_append_last (eqv : α → α → Bool) (x z : α) :
    ∀ seen : List α, seen.any (eqv x) = false →
      firstMatch eqv x (seen ++ [z]) = if eqv x z then z else x := by
  intro seen
  induction seen with
  | nil => intro _; rfl
  | cons y ys ih =>
    intro h
    rw [List.any_cons] at h
    obtain ⟨h1, h2⟩ := Bool.or_eq_false_iff.mp h
    rw [List.cons_append, firstMatch, if_neg (by simp [h1]), ih h2]

/-- One memoised call on a faithful cache returns the rendering of the first
`eqv`-equal argument seen, and leaves the cache faithful to the extended history.
Requires `eqv` to be symmetric and transitive, which Python `==` is on the
builders' key domains. -/
theorem cachedCall_faithful (f : α → String) (eqv : α → α → Bool)
    (hsymm : ∀ a b, eqv a b = true → eqv b a = true)
    (htrans : ∀ a b c, eqv a b = true → eqv b c = true → eqv a c = true)
    {seen : List α} {cache : List (α × String)}
    (h : CacheFaithful f eqv seen cache) (x : α) :
    (cachedCall f eqv cache x).1 = f (firstMatch eqv x seen) ∧
    CacheFaithful f eqv (seen ++ [x]) (cachedCall f eqv cache x).2 := by
  have hx := h x
  cases hsx : List.any seen (eqv x) with
  | true =>
    rw [hsx, if_pos rfl] at hx
    rw [cachedCall, hx]
    refine ⟨rfl, ?_⟩
    intro z
    have hz := h z
    cases hsz : List.any seen (eqv z) with
    | true =>
      rw [hsz, if_pos rfl] at hz
      rw [hz, List.any_append, hsz, Bool.true_or, if_pos rfl,
        firstMatch_append_of_any eqv z [x] seen hsz]
    | false =>
      rw [hsz, if_neg (by simp)] at hz
      cases hzx : eqv z x with
      | true =>
        obtain ⟨y, hy, hxy⟩ := List.any_eq_true.mp hsx
        have : List.any seen (eqv z) = true :=
          List.any_eq_true.mpr ⟨y, hy, htrans z x y hzx hxy⟩
        rw [hsz] at this
        exact absurd this (by simp)
      | false =>
        rw [hz, List.any_append, hsz, Bool.false_or]
        have : List.any [x] (eqv z) = false := by simp [hzx]
        rw [this, if_neg (by simp)]
  | false =>
    rw [hsx, if_neg (by simp)] at hx
    rw [cachedCall, hx]
    refine ⟨congrArg f (firstMatch_of_not_any eqv x seen hsx).symm, ?_⟩
    intro z
    have hz := h z
    cases hzx : eqv z x with
    | true =>
      have hsz : List.any seen (eqv z) = false := by
        cases hsz : List.any seen (eqv z) with
        | false => rfl
        | true =>
          obtain ⟨y, hy, hzy⟩ := List.any_eq_true.mp hsz
          have : List.any seen (eqv x) = true :=
            List.any_eq_true.mpr ⟨y, hy, htrans x z y (hsymm z x hzx) hzy⟩
          rw [hsx] at this
          exact absurd this (by simp)
      rw [cacheLookup, if_pos hzx, List.any_append, hsz, Bool.false_or]
      have hone : List.any [x] (eqv z) = true := by simp [hzx]
      rw [hone, if_pos rfl, firstMatch_append_last eqv z x seen hsz, if_pos hzx]
    | false =>
      rw [cacheLookup, if_neg (by simp [hzx]), hz, List.any_append]
      have hone : List.any [x] (eqv z) = false := by simp [hzx]
      rw [hone, Bool.or_false]
      cases hsz : List.any seen (eqv z) with
      | true =>
        rw [if_pos rfl, if_pos rfl, firstMatch_append_of_any eqv z [x] seen hsz]
      | false =>
        rw [if_neg (by simp), if_neg (by simp)]

/-- A sequence of memoised calls observes exactly the first-match specification:
each output is the pure rendering of the first `eqv`-equal argument in call
order. -/
theorem runCalls_eq_memoOutputs (f : α → String) (eqv : α → α → Bool)
    (hsymm : ∀ a b, eqv a b = true → eqv b a = true)
    (htrans : ∀ a b c, eqv a b = true → eqv b c = true → eqv a c = true) :
    ∀ (xs seen : List α) (cache : List (α × String)),
      CacheFaithful f eqv seen cache →
      runCalls f eqv cache xs = memoOutputs f eqv seen xs
  | [], _, _, _ => rfl
  | x :: xs, seen, cache, h => by
    obtain ⟨h1, h2⟩ := cachedCall_faithful f eqv hsymm htrans h x
    rw [runCalls, memoOutputs, h1,
      runCalls_eq_memoOutputs f eqv hsymm htrans xs (seen ++ [x]) _ h2]

/-- The empty cache is faithful to the empty call history. -/
theorem cacheFaithful_nil (f : α → String) (eqv : α → α → Bool) :
    CacheFaithful f eqv [] [] := by
  intro x
  rfl

/-- Two memoised calls with the identical argument return the same, correct
rendering (the caching never breaks per-input determinism). -/
theorem runCalls_pair_self (f : α → String) (eqv : α → α → Bool)
    (hsymm : ∀ a b, eqv a b = true → eqv b a = true)
    (htrans : ∀ a b c, eqv a b = true → eqv b c = true → eqv a c = true)
    (x : α) : runCalls f eqv [] [x, x] = [f x, f x] := by
  rw [runCalls_eq_memoOutputs f eqv hsymm htrans [x, x] [] [] (cacheFaithful_nil f eqv)]
  simp [memoOutputs, firstMatch]

/-- Python `==` on scalars is symmetric. -/
theorem pyEq_symm (a b : PyVal) (h : pyEq a b = true) : pyEq b a = true := by
  rw [pyEq, Bool.and_eq_true, decide_eq_true_iff, decide_eq_true_iff] at h ⊢
  exact ⟨h.1.symm, h.2.symm⟩

/-- Python `==` on scalars is transitive. -/
theorem pyEq_trans (a b c : PyVal) (h1 : pyEq a b = true) (h2 : pyEq b c = true) :
    pyEq a c = true := by
  rw [pyEq, Bool.and_eq_true, decide_eq_true_iff, decide_eq_true_iff] at h1 h2 ⊢
  exact ⟨h1.1.trans h2.1, h1.2.trans h2.2⟩

/-- Python `==` on scalar tuples is symmetric. -/
theorem pyEqList_symm : ∀ as bs, pyEqList as bs = true → pyEqList bs as = true
  | [], [], _ => rfl
  | [], _ :: _, h => by simp [pyEqList] at h
  | _ :: _, [], h => by simp [pyEqList] at h
  | a :: as, b :: bs, h => by
    rw [pyEqList, Bool.and_eq_true] at h ⊢
    exact ⟨pyEq_symm a b h.1, pyEqList_symm as bs h.2⟩

/-- Python `==` on scalar tuples is transitive. -/
theorem pyEqList_trans : ∀ as bs cs, pyEqList as bs = true → pyEqList bs cs = true →
    pyEqList as cs = true
  | [], [], [], _, _ => rfl
  | _ :: _, _ :: _, [], _, h2 => by simp [pyEqList] at h2
  | [], [], _ :: _, _, h2 => by simp [pyEqList] at h2
  | [], _ :: _, _, h1, _ => by simp [pyEqList] at h1
  | _ :: _, [], _, h1, _ => by simp [pyEqList] at h1
  | a :: as, b :: bs, c :: cs, h1, h2 => by
    rw [pyEqList, Bool.and_eq_true] at h1 h2 ⊢
    exact ⟨pyEq_trans a b c h1.1 h2.1, pyEqList_trans as bs cs h1.2 h2.2⟩

/-- Structural-key equality (used for the `val_like` and `val_null` caches, where
Python `==` has no cross-type aliasing) is symmetric. -/
theorem decideEq_symm {β : Type} [DecidableEq β] {p q : β} (h : decide (p = q) = true) :
    decide (q = p) = true := decide_eq_true (of_decide_eq_true h).symm

/-- Structural-key equality is transitive. -/
theorem decideEq_trans {β : Type} [DecidableEq β] {p q r : β} (h1 : decide (p = q) = true)
    (h2 : decide (q = r) = true) : decide (p = r) = true :=
  decide_eq_true ((of_decide_eq_true h1).trans (of_decide_eq_true h2))

/-- The `val_btw` cache key comparison is symmetric. -/
theorem pyEqKeyBtw_symm (p q : PyVal × PyVal × Bool) (h : pyEqKeyBtw p q = true) :
    pyEqKeyBtw q p = true := by
  rw [pyEqKeyBtw, Bool.and_eq_true, Bool.and_eq_true] at h ⊢
  exact ⟨⟨pyEq_symm _ _ h.1.1, pyEq_symm _ _ h.1.2⟩, decideEq_symm h.2⟩

/-- The `val_btw` cache key comparison is transitive. -/
theorem pyEqKeyBtw_trans (p q r : PyVal × PyVal × Bool) (h1 : pyEqKeyBtw p q = true)
    (h2 : pyEqKeyBtw q r = true) : pyEqKeyBtw p r = true := by
  rw [pyEqKeyBtw, Bool.and_eq_true, Bool.and_eq_true] at h1 h2 ⊢
  exact ⟨⟨pyEq_trans _ _ _ h1.1.1 h2.1.1, pyEq_trans _ _ _ h1.1.2 h2.1.2⟩,
    decideEq_trans h1.2 h2.2⟩

/-- The `val_in` cache key comparison is symmetric. -/
theorem pyEqKeyIn_symm (p q : List PyVal × Bool) (h : pyEqKeyIn p q = true) :
    pyEqKeyIn q p = true := by
  rw [pyEqKeyIn, Bool.and_eq_true] at h ⊢
  exact ⟨pyEqList_symm _ _ h.1, decideEq_symm h.2⟩

/-- The `val_in` cache key comparison is transitive. -/
theorem pyEqKeyIn_trans (p q r : List PyVal × Bool) (h1 : pyEqKeyIn p q = true)
    (h2 : pyEqKeyIn q r = true) : pyEqKeyIn p r = true := by
  rw [pyEqKeyIn, Bool.and_eq_true] at h1 h2 ⊢
  exact ⟨pyEqList_trans _ _ _ h1.1 h2.1, decideEq_trans h1.2 h2.2⟩

/-- The rendering C2 claims for the column list of an insert statement (for
refutation): the column names as a bare comma-separated parenthesized list,
values rendered as the code renders them. -/
def row_insert_claimed (data : List (String × PyVal)) (ignore : Bool) (table : String) : String :=
  "INSERT " ++ _sql_ignore ignore ++ "INTO " ++ table ++ " (" ++
    String.intercalate ", " (data.map Prod.fst) ++ ") VALUES (" ++
    String.intercalate ", " (data.map (fun e => pyRepr e.2)) ++ ");"

/-- Unfolding of the tuple rendering on a tuple of at least two elements. -/
theorem pyTupleRepr_cons_cons (x y : PyVal) (zs : List PyVal) :
    pyTupleRepr (x :: y :: zs) = "(" ++ String.intercalate ", " ((x :: y :: zs).map pyRepr) ++ ")" :=
  rfl

/-- C1: `fetch(tables=["t1","t2"], select=["t1.x"], where={"t1.id": "== '5'"},
order={"t1.x": "ASC"})` hands `sql_select` these arguments, and the assembled SQL
string is byte for byte `SELECT t1.x FROM t1 NATURAL JOIN t2 WHERE t1.id == '5'
ORDER BY t1.x ASC;`. -/
theorem claim1_fetch_sql_exact :
    sql_select (Sum.inr ["t1", "t2"]) (some ["t1.x"])
        (some [("t1.id", "== '5'")]) (some [("t1.x", "ASC")]) =
      "SELECT t1.x FROM t1 NATURAL JOIN t2 WHERE t1.id == '5' ORDER BY t1.x ASC;" :=
  rfl

/-- C2 counterexample: for the two-column row `{"a": 1, "b": "x"}` the generated
insert statement quotes the column names (Python renders `tuple(data.keys())`),
so the column list is not the bare list the claim states. -/
theorem claim2_insert_cols_not_bare :
    _row_insert [("a", PyVal.int 1), ("b", PyVal.str "x")] false "t" =
      "INSERT INTO t ('a', 'b') VALUES (1, 'x');" ∧
    row_insert_claimed [("a", PyVal.int 1), ("b", PyVal.str "x")] false "t" =
      "INSERT INTO t (a, b) VALUES (1, 'x');" ∧
    _row_insert [("a", PyVal.int 1), ("b", PyVal.str "x")] false "t" ≠
      row_insert_claimed [("a", PyVal.int 1), ("b", PyVal.str "x")] false "t" := by
  refine ⟨rfl, rfl, ?_⟩
  decide

/-- C2 amended: the insert statement is `INSERT [OR IGNORE] INTO {table} {cols}
VALUES {vals};` where `{cols}` and `{vals}` are the Python tuple renderings of the
mapping's keys and values in the same iteration order — for two or more entries a
parenthesized comma-separated list with the column names single-quoted, and for a
single entry the same with a trailing comma. Columns and values correspond
pairwise. -/
theorem claim2_insert_tuple_rendering (table : String) (htable : table ≠ "")
    (p q : String × PyVal) (rest : List (String × PyVal)) (ignore : Bool) :
    (_row_insert (p :: q :: rest) ignore table =
      "INSERT " ++ _sql_ignore ignore ++ "INTO " ++ table ++ " " ++
        ("(" ++ String.intercalate ", " ((p :: q :: rest).map (fun e => "'" ++ e.1 ++ "'")) ++ ")") ++
        " VALUES " ++
        ("(" ++ String.intercalate ", " ((p :: q :: rest).map (fun e => pyRepr e.2)) ++ ")") ++
        ";") ∧
    (_row_insert [p] ignore table =
      "INSERT " ++ _sql_ignore ignore ++ "INTO " ++ table ++ " " ++
        ("(" ++ ("'" ++ p.1 ++ "'") ++ ",)") ++ " VALUES " ++
        ("(" ++ pyRepr p.2 ++ ",)") ++ ";") := by
  constructor
  · rw [_row_insert]
    simp only [List.map_cons, pyTupleRepr_cons_cons, List.map_map]
    rfl
  · rw [_row_insert]
    rfl

/-- C2 witness: the amended rendering at a concrete table and rows. -/
theorem claim2_insert_tuple_rendering_witness :
    ("t" : String) ≠ "" ∧
    _row_insert [("a", PyVal.int 1), ("b", PyVal.str "x")] false "t" =
      "INSERT INTO t ('a', 'b') VALUES (1, 'x');" ∧
    _row_insert [("a", PyVal.int 1)] true "t" =
      "INSERT OR IGNORE INTO t ('a',) VALUES (1,);" := by
  refine ⟨by decide, ?_, ?_⟩
  · exact ((claim2_insert_tuple_rendering "t" (by decide) ("a", PyVal.int 1)
      ("b", PyVal.str "x") [] false).1).trans (by rfl)
  · exact ((claim2_insert_tuple_rendering "t" (by decide) ("a", PyVal.int 1)
      ("b", PyVal.str "x") [] true).2).trans (by rfl)

/-- C7 counterexample: a single-value membership call renders with a trailing
comma, `IN ('a',)`, not in the same shape as the many-value case would give,
`IN ('a')`. -/
theorem claim7_single_value_shape :
    val_in [PyVal.str "a"] false = "IN ('a',)" ∧
    val_in [PyVal.str "a"] false ≠ "IN ('a')" := by
  exact ⟨rfl, by decide⟩

/-- C7 amended: for two or more values the membership builder returns
`[NOT ]IN (r1, r2, ...)` with the values comma-separated inside parentheses and
rendered by Python repr (strings single-quoted); for exactly one value the Python
singleton-tuple rendering adds a trailing comma, `[NOT ]IN (r1,)`. -/
theorem claim7_val_in_rendering (x y : PyVal) (rest : List PyVal) (negate : Bool) :
    (val_in (x :: y :: rest) negate =
      (if negate then "NOT " else "") ++ "IN " ++
        ("(" ++ String.intercalate ", " ((x :: y :: rest).map pyRepr) ++ ")")) ∧
    (val_in [x] negate =
      (if negate then "NOT " else "") ++ "IN " ++ ("(" ++ pyRepr x ++ ",)")) := by
  constructor
  · rw [val_in, pyTupleRepr_cons_cons]
  · rfl

/-- C3: with a non-empty table, a batch one larger than the threshold makes
`row_insert` create exactly one backup, as the very first engine interaction
(before the connection and the insert statements of `_execute`); a batch of
exactly the threshold size creates none. -/
theorem claim3_threshold_backup (threshold : Nat) (table : String) (ignore : Bool)
    (htable : table ≠ "") :
    (∀ data : List (List (String × PyVal)), data.length = threshold + 1 →
      row_insert_trace (threshold : Int) table data ignore =
        Event.backup ::
          _execute ((data.filter (fun p => ¬ p = [])).map (fun p => _row_insert p ignore table)) ∧
      Event.backup ∉
        _execute ((data.filter (fun p => ¬ p = [])).map (fun p => _row_insert p ignore table))) ∧
    (∀ data : List (List (String × PyVal)), data.length = threshold →
      Event.backup ∉ row_insert_trace (threshold : Int) table data ignore) := by
  constructor
  · intro data hlen
    refine ⟨?_, backup_not_mem_execute _⟩
    rw [row_insert_trace, if_neg htable, hlen]
    rw [if_pos (by exact_mod_cast Nat.lt_succ_self threshold)]
    rfl
  · intro data hlen
    rw [row_insert_trace, if_neg htable, hlen, if_neg (lt_irrefl _)]
    simpa using backup_not_mem_execute _

/-- C3 witness: threshold 1, a two-row batch backs up first, a one-row batch does
not back up. -/
theorem claim3_threshold_backup_witness :
    ("t" : String) ≠ "" ∧
    row_insert_trace 1 "t" [[("a", PyVal.int 1)], [("a", PyVal.int 2)]] false =
      Event.backup :: _execute ["INSERT INTO t ('a',) VALUES (1,);",
        "INSERT INTO t ('a',) VALUES (2,);"] ∧
    Event.backup ∉ row_insert_trace 1 "t" [[("a", PyVal.int 1)]] false := by
  refine ⟨by decide, ?_, ?_⟩
  · exact (((claim3_threshold_backup 1 "t" false (by decide)).1
      [[("a", PyVal.int 1)], [("a", PyVal.int 2)]] rfl).1).trans (by rfl)
  · exact (claim3_threshold_backup 1 "t" false (by decide)).2 [[("a", PyVal.int 1)]] rfl

/-- C5 counterexample: `row_insert` on a non-empty table with a falsy payload (one
empty mapping) is not a no-op — it opens a connection and executes the three
pragma statements (no insert statement). -/
theorem claim5_falsy_insert_opens_connection :
    row_insert_trace 10 "t" [[]] false ≠ [] ∧
    Event.connect ∈ row_insert_trace 10 "t" [[]] false ∧
    row_insert_trace 10 "t" [[]] false =
      [Event.connect, Event.exec "PRAGMA foreign_keys = ON;",
       Event.exec "PRAGMA journal_mode = WAL;", Event.exec "PRAGMA synchronous = NORMAL;"] := by
  refine ⟨by decide, by decide, by rfl⟩

/-- C5 amended: every row-mutating operation called with an empty table name
returns normally with no engine call, and so does `row_update` with a falsy
payload; but `row_insert` with a non-empty table and a falsy payload (all
mappings empty, batch within the threshold) still opens a connection and runs
the three pragmas, executing no insert statement. -/
theorem claim5_mutators_noop_guards (threshold : Int) (table col sql_type : String)
    (data : List (List (String × PyVal))) (row : List (String × PyVal))
    (wh : Option (List (String × String))) (ignore : Bool) (default : Option PyVal) :
    (table = "" → row_insert_trace threshold table data ignore = []) ∧
    (table = "" ∨ row = [] → row_update_trace table row wh = []) ∧
    (table = "" → row_delete_trace table wh = []) ∧
    (table = "" → col_create_trace table col sql_type default = []) ∧
    (table ≠ "" → (∀ p ∈ data, p = []) → (data.length : Int) ≤ threshold →
      row_insert_trace threshold table data ignore = Event.connect :: _conn_run) := by
  refine ⟨?_, ?_, ?_, ?_, ?_⟩
  · intro h
    rw [row_insert_trace, if_pos h]
  · intro h
    rw [row_update_trace, if_pos h]
  · intro h
    rw [row_delete_trace, if_pos h]
  · intro h
    rw [col_create_trace, if_pos (Or.inl h)]
  · intro htable hall hth
    have hfilter : data.filter (fun p => ¬ p = []) = [] := by
      rw [List.filter_eq_nil_iff]
      intro a ha
      simp [hall a ha]
    rw [row_insert_trace, if_neg htable, if_neg (not_lt.mpr hth), hfilter]
    simp [_execute]

/-- C5 witness: the guards at concrete inputs, and the connection-opening
behaviour of a falsy-payload insert. -/
theorem claim5_mutators_noop_guards_witness :
    row_insert_trace 10 "" [[("a", PyVal.int 1)]] false = [] ∧
    row_update_trace "t" [] none = [] ∧
    row_delete_trace "" none = [] ∧
    col_create_trace "" "c" "int" none = [] ∧
    row_insert_trace 10 "t" [[]] false = Event.connect :: _conn_run := by
  refine ⟨?_, ?_, ?_, ?_, ?_⟩
  · exact (claim5_mutators_noop_guards 10 "" "c" "int" [[("a", PyVal.int 1)]] [] none false
      none).1 rfl
  · exact (claim5_mutators_noop_guards 10 "t" "c" "int" [] [] none false none).2.1 (Or.inr rfl)
  · exact (claim5_mutators_noop_guards 10 "" "c" "int" [] [] none false none).2.2.1 rfl
  · exact (claim5_mutators_noop_guards 10 "" "c" "int" [] [] none false none).2.2.2.1 rfl
  · exact (claim5_mutators_noop_guards 10 "t" "c" "int" [[]] [] none false none).2.2.2.2
      (by decide) (by intro p hp; simpa using hp) (by decide)

/-- C4 counterexample: with effective retention 1 and three backups already in the
directory, `backup_create` evicts only the single oldest, so three files remain
afterwards — more than the retention count. -/
theorem claim4_retention_overfull_dir :
    backup_create 1 ["a", "b", "c"] "d" = (none, ["b", "c", "d"]) ∧
    ¬ ((backup_create 1 ["a", "b", "c"] "d").2.length ≤ 1) := by
  refine ⟨by rfl, by decide⟩

/-- C4 amended: the effective retention count is the absolute value of the
constructor argument, and when the retention is at least 1 and the directory
holds at most that many backups, `backup_create` succeeds, afterwards at most
`retention` backups exist, and when eviction occurs (directory already at or
above retention) the removed file is the first of the ascending-sorted listing
(the chronologically oldest). The invariant is preserved, not established: an
already-overfull directory stays overfull (see the counterexample). -/
theorem claim4_retention_preserved (retention : Nat) (existing : List String) (newName : String)
    (hret : 1 ≤ retention) (hlen : existing.length ≤ retention) :
    __backups (-(retention : Int)) = retention ∧
    (backup_create retention existing newName).1 = none ∧
    (backup_create retention existing newName).2.length ≤ retention ∧
    (retention ≤ existing.length →
      (backup_create retention existing newName).2 = (sortBackups existing).tail ++ [newName]) := by
  refine ⟨by simp [__backups], ?_⟩
  rcases hsort : sortBackups existing with _ | ⟨x, rest⟩
  · have h0 : existing.length = 0 := by
      have hl := sortBackups_length existing
      rw [hsort] at hl
      exact hl.symm
    rw [backup_create, hsort]
    rw [if_neg (by simp; omega)]
    refine ⟨rfl, ?_, ?_⟩
    · simp [h0]
      omega
    · intro hcontra
      omega
  · have hl : rest.length + 1 = existing.length := by
      have hl := sortBackups_length existing
      rw [hsort] at hl
      simpa using hl
    rw [backup_create, hsort]
    by_cases hc : retention ≤ (x :: rest).length
    · rw [if_pos hc]
      refine ⟨rfl, ?_, ?_⟩
      · simp only [List.length_append, List.length_cons] at hc ⊢
        simp only [List.length_nil]
        omega
      · intro _
        simp
    · rw [if_neg hc]
      simp only [List.length_cons] at hc
      refine ⟨rfl, ?_, ?_⟩
      · simp only [List.length_append, List.length_cons, List.length_nil]
        omega
      · intro hge
        omega

/-- C4 witness: retention 2 over a two-backup directory evicts the alphabetically
first name and stays at two files. -/
theorem claim4_retention_preserved_witness :
    1 ≤ 2 ∧ (["b", "a"] : List String).length ≤ 2 ∧
    backup_create 2 ["b", "a"] "c" = (none, ["b", "c"]) := by
  refine ⟨by decide, by decide, ?_⟩
  have h := claim4_retention_preserved 2 ["b", "a"] "c" (by decide) (by decide)
  exact Prod.ext_iff.mpr ⟨h.2.1, (h.2.2.2 (by decide)).trans (by rfl)⟩

/-- C10: with effective retention 0 and an empty backup directory, the eviction
index `backups[0]` is out of bounds, so `backup_create` raises IndexError and no
snapshot is written (the directory is unchanged); with retention at least 1 the
eviction index is always in bounds and no such error is possible. -/
theorem claim10_retention_zero_index_error (n : Nat) (existing : List String)
    (newName : String) :
    backup_create 0 [] newName = (some BackupErr.indexError, []) ∧
    (1 ≤ n → (backup_create n existing newName).1 = none) := by
  constructor
  · rfl
  · intro hn
    rcases hsort : sortBackups existing with _ | ⟨x, rest⟩
    · rw [backup_create, hsort]
      rw [if_neg (by simp; omega)]
    · rw [backup_create, hsort]
      by_cases hc : n ≤ (x :: rest).length
      · rw [if_pos hc]
      · rw [if_neg hc]

/-- C10 witness: retention 1 succeeds on a one-backup directory; retention 0 on an
empty directory raises IndexError with nothing written. -/
theorem claim10_retention_zero_index_error_witness :
    1 ≤ 1 ∧ (backup_create 1 ["x"] "y").1 = none ∧
    backup_create 0 [] "z" = (some BackupErr.indexError, []) := by
  exact ⟨by decide, (claim10_retention_zero_index_error 1 ["x"] "y").2 (by decide),
    (claim10_retention_zero_index_error 0 [] "z").1⟩

/-- C6: restoring (`backup_set`) or deleting (`backup_pop`) a backup path that does
not exist fails with FileNotFoundError, and one whose permission bits differ from
the live database file fails with PermissionError; in both failure cases the
check raises before any write, so the whole directory state — in particular the
live database file and the backup file — is unchanged. -/
theorem claim6_backup_failures_leave_fs (fs : List (String × File)) (db bak : String) :
    (fsLookup fs bak = none →
      backup_set fs db bak = (some BakErr.fileNotFound, fs) ∧
      backup_pop fs db bak = (some BakErr.fileNotFound, fs)) ∧
    (∀ f g : File, fsLookup fs bak = some f → fsLookup fs db = some g → f.mode ≠ g.mode →
      backup_set fs db bak = (some BakErr.permissionError, fs) ∧
      backup_pop fs db bak = (some BakErr.permissionError, fs)) := by
  constructor
  · intro h
    constructor <;> simp [backup_set, backup_pop, backup_check, h]
  · intro f g h1 h2 hne
    constructor <;> simp [backup_set, backup_pop, backup_check, h1, h2, hne]

/-- C6 witness: a missing backup path and a mode-mismatched backup path, each
leaving the two-file directory exactly as it was. -/
theorem claim6_backup_failures_leave_fs_witness :
    backup_set [(("db" : String), File.mk 420 "live")] "db" "bak" =
      (some BakErr.fileNotFound, [(("db" : String), File.mk 420 "live")]) ∧
    backup_pop [(("db" : String), File.mk 420 "live"), ("bak", File.mk 511 "old")] "db" "bak" =
      (some BakErr.permissionError,
        [(("db" : String), File.mk 420 "live"), ("bak", File.mk 511 "old")]) := by
  constructor
  · exact ((claim6_backup_failures_leave_fs [(("db" : String), File.mk 420 "live")]
      "db" "bak").1 (by rfl)).1
  · exact ((claim6_backup_failures_leave_fs
      [(("db" : String), File.mk 420 "live"), ("bak", File.mk 511 "old")] "db" "bak").2
      (File.mk 511 "old") (File.mk 420 "live") (by rfl) (by rfl) (by decide)).2

/-- C8 counterexample: the memoisation is keyed by Python `==`, under which
`True == 1`, so calling `val_btw(True, 2)` and then `val_btw(1, 2)` returns the
cached `BETWEEN 'True' AND '2'` for the second call although the pure rendering
of `(1, 2)` is `BETWEEN '1' AND '2'` — an earlier call does have a side effect on
a later result. -/
theorem claim8_cache_side_effect :
    runCalls (fun p => val_btw p.1 p.2.1 p.2.2) pyEqKeyBtw []
        [(PyVal.bool true, PyVal.int 2, false), (PyVal.int 1, PyVal.int 2, false)] =
      ["BETWEEN 'True' AND '2'", "BETWEEN 'True' AND '2'"] ∧
    val_btw (PyVal.int 1) (PyVal.int 2) false = "BETWEEN '1' AND '2'" ∧
    runCalls (fun p => val_btw p.1 p.2.1 p.2.2) pyEqKeyBtw []
        [(PyVal.bool true, PyVal.int 2, false), (PyVal.int 1, PyVal.int 2, false)] ≠
      [(PyVal.bool true, PyVal.int 2, false), (PyVal.int 1, PyVal.int 2, false)].map
        (fun p => val_btw p.1 p.2.1 p.2.2) := by
  refine ⟨by rfl, by rfl, by decide⟩

/-- C8 amended: each builder's underlying function is pure, and the memoised
wrapper is deterministic only up to Python `==` on its argument key: every call
returns the pure rendering of the first argument in call order that compares
Python-`==` to the current one (the current argument itself when none does). In
particular repeated calls with the identical argument return byte-identical
strings, but a call whose argument is `==`-equal to an earlier, differently
rendered one (such as `True` versus `1`) returns the earlier rendering, so calls
do affect later results across such aliased inputs (see the counterexample). -/
theorem claim8_builders_memoised_rendering :
    (∀ xs : List PyVal, runCalls val_eq pyEq [] xs = memoOutputs val_eq pyEq [] xs) ∧
    (∀ xs : List PyVal, runCalls val_neq pyEq [] xs = memoOutputs val_neq pyEq [] xs) ∧
    (∀ xs : List PyVal, runCalls val_lt pyEq [] xs = memoOutputs val_lt pyEq [] xs) ∧
    (∀ xs : List PyVal, runCalls val_gt pyEq [] xs = memoOutputs val_gt pyEq [] xs) ∧
    (∀ xs : List PyVal, runCalls val_lte pyEq [] xs = memoOutputs val_lte pyEq [] xs) ∧
    (∀ xs : List PyVal, runCalls val_gte pyEq [] xs = memoOutputs val_gte pyEq [] xs) ∧
    (∀ xs : List (List PyVal × Bool),
      runCalls (fun p => val_in p.1 p.2) pyEqKeyIn [] xs =
        memoOutputs (fun p => val_in p.1 p.2) pyEqKeyIn [] xs) ∧
    (∀ xs : List (PyVal × PyVal × Bool),
      runCalls (fun p => val_btw p.1 p.2.1 p.2.2) pyEqKeyBtw [] xs =
        memoOutputs (fun p => val_btw p.1 p.2.1 p.2.2) pyEqKeyBtw [] xs) ∧
    (∀ xs : List (String × Bool),
      runCalls (fun p => val_like p.1 p.2) pyEqKeyLike [] xs =
        memoOutputs (fun p => val_like p.1 p.2) pyEqKeyLike [] xs) ∧
    (∀ xs : List Bool,
      runCalls val_null pyEqKeyNull [] xs = memoOutputs val_null pyEqKeyNull [] xs) ∧
    (∀ p : PyVal × PyVal × Bool,
      runCalls (fun q => val_btw q.1 q.2.1 q.2.2) pyEqKeyBtw [] [p, p] =
        [val_btw p.1 p.2.1 p.2.2, val_btw p.1 p.2.1 p.2.2]) ∧
    (∀ v : PyVal, runCalls val_eq pyEq [] [v, v] = [val_eq v, val_eq v]) := by
  refine ⟨?_, ?_, ?_, ?_, ?_, ?_, ?_, ?_, ?_, ?_, ?_, ?_⟩
  · exact fun xs => runCalls_eq_memoOutputs _ pyEq pyEq_symm pyEq_trans xs [] []
      (cacheFaithful_nil _ _)
  · exact fun xs => runCalls_eq_memoOutputs _ pyEq pyEq_symm pyEq_trans xs [] []
      (cacheFaithful_nil _ _)
  · exact fun xs => runCalls_eq_memoOutputs _ pyEq pyEq_symm pyEq_trans xs [] []
      (cacheFaithful_nil _ _)
  · exact fun xs => runCalls_eq_memoOutputs _ pyEq pyEq_symm pyEq_trans xs [] []
      (cacheFaithful_nil _ _)
  · exact fun xs => runCalls_eq_memoOutputs _ pyEq pyEq_symm pyEq_trans xs [] []
      (cacheFaithful_nil _ _)
  · exact fun xs => runCalls_eq_memoOutputs _ pyEq pyEq_symm pyEq_trans xs [] []
      (cacheFaithful_nil _ _)
  · exact fun xs => runCalls_eq_memoOutputs _ pyEqKeyIn pyEqKeyIn_symm pyEqKeyIn_trans xs [] []
      (cacheFaithful_nil _ _)
  · exact fun xs => runCalls_eq_memoOutputs _ pyEqKeyBtw pyEqKeyBtw_symm pyEqKeyBtw_trans xs
      [] [] (cacheFaithful_nil _ _)
  · exact fun xs => runCalls_eq_memoOutputs _ pyEqKeyLike (fun _ _ h => decideEq_symm h)
      (fun _ _ _ h1 h2 => decideEq_trans h1 h2) xs [] [] (cacheFaithful_nil _ _)
  · exact fun xs => runCalls_eq_memoOutputs _ pyEqKeyNull (fun _ _ h => decideEq_symm h)
      (fun _ _ _ h1 h2 => decideEq_trans h1 h2) xs [] [] (cacheFaithful_nil _ _)
  · exact fun p => runCalls_pair_self _ pyEqKeyBtw pyEqKeyBtw_symm pyEqKeyBtw_trans p
  · exact fun v => runCalls_pair_self _ pyEq pyEq_symm pyEq_trans v

/-- C9: a fetch limit of 0 (the default of `fetch` and `fetch_all`) means no
limit — `fetch or -1` passes -1 and `fetchmany` then returns every row — while a
positive limit k returns the first at most k rows. -/
theorem claim9_fetch_limit (rows : List (List PyVal)) (k : Int) :
    _fetch rows 0 = rows ∧ (0 < k → _fetch rows k = rows.take k.toNat) := by
  constructor
  · rfl
  · intro hk
    rw [_fetch, if_neg (by omega : ¬ (k = 0)), fetchmany, if_pos hk]

/-- C9 witness: limit 0 returns all three rows, limit 2 returns the first two. -/
theorem claim9_fetch_limit_witness :
    (0 : Int) < 2 ∧
    _fetch [[PyVal.int 1], [PyVal.int 2], [PyVal.int 3]] 0 =
      [[PyVal.int 1], [PyVal.int 2], [PyVal.int 3]] ∧
    _fetch [[PyVal.int 1], [PyVal.int 2], [PyVal.int 3]] 2 =
      [[PyVal.int 1], [PyVal.int 2]] := by
  refine ⟨by decide, (claim9_fetch_limit [[PyVal.int 1], [PyVal.int 2], [PyVal.int 3]] 2).1, ?_⟩
  exact ((claim9_fetch_limit [[PyVal.int 1], [PyVal.int 2], [PyVal.int 3]] 2).2
    (by decide)).trans (by rfl)
